import Mathlib

/-!
Verification development for `blue-number-resetter` (`src/main.rs`).

The tool edits a Deep Rock Galactic save file: it navigates the decoded
property tree to `root.properties["CharacterSaves"]`, checks its shape,
classifies the 5 class-save slots into 4 active ones and 1 inactive
(sentinel-GUID) one, writes fixed values into the active slots, and writes a
solved value into the inactive slot so that the derived "blue level" hits a
target.  The definitions below are a shallow embedding of `edit_save`'s
in-memory pipeline; the external `uesave` codec (decode/encode) and file I/O
are modelled only through `diskAfterEdit`, which records that the original
file is overwritten exactly when the in-memory pipeline finishes without an
error or a panic.
-/

namespace BNR

/-- Embeds `uesave::PropertyType`; only `StructProperty` is inspected by the
program, every other tag is carried opaquely. -/
inductive PropertyType where
  | structProperty
  | otherType (tag : String)
deriving DecidableEq

/-- Embeds `uesave::StructType`; the program inspects `Guid` and
`Struct(Some name)`, everything else is carried opaquely. -/
inductive StructType where
  | guid
  | struct (sname : Option String)
  | otherStruct (tag : String)
deriving DecidableEq

mutual

/-- Embeds `uesave::Property`.  `meta` stands for the remaining fields of the
Rust struct variants (matched by `..` in the source) that the program never
reads or writes; they ride along unchanged. -/
inductive Property where
  | int (value : Int) (meta : String)
  | struct (structType : StructType) (value : StructValue) (meta : String)
  | array (arrayType : PropertyType) (value : ValueArray) (meta : String)
  | otherProp (tag : String)

/-- Embeds `uesave::StructValue`: a struct carries an insertion-ordered field
map (modelled as a key/value list, as indexing finds the first matching key),
a guid carries a 128-bit identifier (modelled as a `Nat`). -/
inductive StructValue where
  | struct (props : List (String × Property))
  | guid (value : Nat)
  | otherSV (tag : String)

/-- Embeds `uesave::ValueArray`; the `structs` variant carries the `_type`,
`name` and `struct_type` tags checked by the program, the slot list, and
opaque `meta` for the remaining fields. -/
inductive ValueArray where
  | structs (t nm : String) (structType : StructType) (value : List StructValue) (meta : String)
  | otherVA (tag : String)

end

/-- The failure modes of the in-memory pipeline.  The first three mirror the
spec's error taxonomy for the `bail!`/`ensure!` sites of `edit_save`; `panic`
models a Rust panic (indexing a missing key in a field map panics, as does the
`panic!` in the partition closure), which also aborts the run but is not a
returned error value. -/
inductive EditError where
  | shapeMismatch (msg : String)
  | countMismatch (msg : String)
  | fieldMissing (msg : String)
  | panic (msg : String)
deriving DecidableEq

def EditError.isShapeMismatch : EditError → Bool
  | .shapeMismatch _ => true
  | _ => false

def EditError.isCountMismatch : EditError → Bool
  | .countMismatch _ => true
  | _ => false

def EditError.isFieldMissing : EditError → Bool
  | .fieldMissing _ => true
  | _ => false

def EditError.isPanic : EditError → Bool
  | .panic _ => true
  | _ => false

/-- First-match lookup in a field map, the read half of `props[key]`. -/
def lookupProp : List (String × Property) → String → Option Property
  | [], _ => none
  | (k, v) :: rest, key => if k = key then some v else lookupProp rest key

/-- Replace the value at the first occurrence of `key`, the write half of
`props[key] = ...` through a mutable reference; leaves the map unchanged when
the key is absent (that case panics before any write in the source). -/
def setProp : List (String × Property) → String → Property → List (String × Property)
  | [], _, _ => []
  | (k, v) :: rest, key, p =>
    if k = key then (k, p) :: rest else (k, v) :: setProp rest key p

/-- Embeds `uesave::Root`: the save-game type string and the root field map. -/
structure Root where
  saveGameType : String
  properties : List (String × Property)

/-- Embeds `uesave::Save`: header and trailing bytes are opaque to the
program and modelled as strings that ride along unchanged. -/
structure Save where
  header : String
  root : Root
  extra : String

/-- The sentinel GUID `d6d5686e-4547-e66f-46c5-ce8e28b16827` of the inactive
class save slot, as a 128-bit number. -/
def inactiveUuid : Nat := 0xd6d5686e4547e66f46c5ce8e28b16827

/-- `MIN_PROMOS` from the source. -/
def MIN_PROMOS : Int := 1

/-- `RED_LEVELS_PER_PROMO` from the source. -/
def RED_LEVELS_PER_PROMO : Int := 25

/-- `target_blue_level` from the source: hardcoded, not an input. -/
def targetBlueLevel : Int := -69

/-- Lines 114-119 of the source: the value written into the inactive slot's
`RetiredCharacterLevels`.  `activeCount` is `active_class_saves.len() as i32`;
Rust `i32` division truncates toward zero, hence `Int.tdiv`. -/
def diffRedLevel (activeCount : Int) : Int :=
  -- let active_red_levels = len * (MIN_PROMOS * RED_LEVELS_PER_PROMO);
  -- let active_blue_level = active_red_levels / 3;
  -- let diff_red_level = (target_blue_level - active_blue_level) * 3;
  (targetBlueLevel - Int.tdiv (activeCount * (MIN_PROMOS * RED_LEVELS_PER_PROMO)) 3) * 3

/-- The partition closure of lines 57-75: panics when a slot is not a struct
or its field map has no `SavegameID` key (map indexing panics); yields `true`
exactly when `SavegameID` is a `Guid`-typed guid equal to the sentinel, and
`false` for any other `SavegameID` value. -/
def isInactiveSlot : StructValue → Except EditError Bool
  | .struct props =>
    match lookupProp props "SavegameID" with
    | none => .error (.panic "key not found")
    | some (.struct .guid (.guid u) _) => .ok (u == inactiveUuid)
    | some _ => .ok false
  | _ => .error (.panic "unexpected class_save struct value kind")

/-- Runs the partition closure over the slots in order, stopping at the first
panic; on success yields the per-slot inactive flags. -/
def classifySlots : List StructValue → Except EditError (List Bool)
  | [] => .ok []
  | sv :: rest =>
    match isInactiveSlot sv with
    | .error e => .error e
    | .ok b =>
      match classifySlots rest with
      | .error e => .error e
      | .ok bs => .ok (b :: bs)

/-- One integer field write (lines 96-100 / 103-107 pattern): indexing a
missing key panics; a present non-`Int` property fails with the source's
"not found" error (the spec's `FieldMissing`); an `Int` property has its
value overwritten, keeping its other (`meta`) fields. -/
def setIntField (props : List (String × Property)) (key : String) (v : Int) :
    Except EditError (List (String × Property)) :=
  match lookupProp props key with
  | none => .error (.panic "key not found")
  | some (.int _ m) => .ok (setProp props key (.int v m))
  | some _ => .error (.fieldMissing ("`" ++ key ++ "` not found"))

/-- Mutating one slot: write `tr` into `TimesRetired`, then `rcl` into
`RetiredCharacterLevels`.  On failure the returned slot is the state at the
point of failure (the first write may already have landed). -/
def mutateSlot (tr rcl : Int) : StructValue → StructValue × Option EditError
  | .struct props =>
    match setIntField props "TimesRetired" tr with
    | .error e => (.struct props, some e)
    | .ok props1 =>
      match setIntField props1 "RetiredCharacterLevels" rcl with
      | .error e => (.struct props1, some e)
      | .ok props2 => (.struct props2, none)
  | sv => (sv, some (.shapeMismatch "unexpected class_save struct value kind"))

/-- The successfully-mutated form of a slot. -/
def setSlotFields (tr rcl : Int) (sv : StructValue) : StructValue :=
  (mutateSlot tr rcl sv).1

/-- Lines 81-112: the loop over the active (flag `false`) slots, writing
`TimesRetired = 1` and `RetiredCharacterLevels = 25` into each, in order,
stopping at the first failure and leaving later slots untouched. -/
def mutateActives : List (Bool × StructValue) → List StructValue × Option EditError
  | [] => ([], none)
  | (b, sv) :: rest =>
    if b then
      match mutateActives rest with
      | (rest1, e) => (sv :: rest1, e)
    else
      match mutateSlot MIN_PROMOS RED_LEVELS_PER_PROMO sv with
      | (sv1, none) =>
        match mutateActives rest with
        | (rest1, e) => (sv1 :: rest1, e)
      | (sv1, some e) => (sv1 :: rest.map Prod.snd, some e)

/-- Lines 122-149: mutate the first inactive (flag `true`) slot, writing
`TimesRetired = 0` and `RetiredCharacterLevels = diffRed`. -/
def mutateHidden (diffRed : Int) : List (Bool × StructValue) → List StructValue × Option EditError
  | [] => ([], none)
  | (b, sv) :: rest =>
    if b then
      match mutateSlot 0 diffRed sv with
      | (sv1, e) => (sv1 :: rest.map Prod.snd, e)
    else
      match mutateHidden diffRed rest with
      | (rest1, e) => (sv :: rest1, e)

/-- The data the navigation step hands to the rest of the pipeline: the slot
list plus the opaque metadata needed to rebuild the `CharacterSaves` entry
(all checked tags are fixed constants on success). -/
structure NavOk where
  aMeta : String
  vMeta : String
  slots : List StructValue

/-- Lines 35-49: navigate `root.properties["CharacterSaves"]` and check its
shape, in the source's order: indexing panics when the key is missing; a
non-`Array` property, a non-`StructProperty` array type, a non-struct value
array, or wrong `_type`/`name`/`struct_type` tags fail with the corresponding
`bail!`/`ensure!` error. -/
def navigateSave (s : Save) : Except EditError NavOk :=
  match lookupProp s.root.properties "CharacterSaves" with
  | none => .error (.panic "key not found")
  | some (.array aTy va m) =>
    if aTy = .structProperty then
      match va with
      | .structs t nm st slots vm =>
        if t = "CharacterSaves" then
          if nm = "StructProperty" then
            if st = .struct (some "CharacterSave") then
              .ok ⟨m, vm, slots⟩
            else .error (.shapeMismatch "unexpected struct_type")
          else .error (.shapeMismatch "expected name StructProperty")
        else .error (.shapeMismatch "unexpected value array _type")
      | .otherVA _ => .error (.shapeMismatch "unexpected length for character saves array")
    else .error (.shapeMismatch "unexpected property type")
  | some _ => .error (.shapeMismatch "expected Property Array for CharacterSaves")

/-- Write a new slot list back into the tree: everything else in the save is
untouched (in the source the slots are mutated in place through references
into this same entry). -/
def rebuildSave (s : Save) (n : NavOk) (newSlots : List StructValue) : Save :=
  let p : Property :=
    .array .structProperty
      (.structs "CharacterSaves" "StructProperty"
        (.struct (some "CharacterSave")) newSlots n.vMeta) n.aMeta
  { s with root := { s.root with properties := setProp s.root.properties "CharacterSaves" p } }

/-- Number of `true` flags, `inactive_class_saves.len()`. -/
def numInactive (flags : List Bool) : Nat := flags.countP (fun b => b)

/-- Number of `false` flags, `active_class_saves.len()`. -/
def numActive (flags : List Bool) : Nat := flags.countP (fun b => !b)

/-- The in-memory pipeline of `edit_save` (everything between decoding and
re-encoding): returns the final in-memory tree together with `none` on
success or the error/panic that aborted the run.  On an abort before the
mutation loops the tree is returned unchanged. -/
def editSaveMem (s : Save) : Save × Option EditError :=
  match navigateSave s with
  | .error e => (s, some e)
  | .ok n =>
    -- ensure!(class_saves.len() == 5)
    if n.slots.length = 5 then
      match classifySlots n.slots with
      | .error e => (s, some e)
      | .ok flags =>
        -- ensure!(inactive_class_saves.len() == 1)
        if numInactive flags = 1 then
          match mutateActives (flags.zip n.slots) with
          | (slots1, some e) => (rebuildSave s n slots1, some e)
          | (slots1, none) =>
            match mutateHidden (diffRedLevel (numActive flags)) (flags.zip slots1) with
            | (slots2, e2) => (rebuildSave s n slots2, e2)
        else (s, some (.countMismatch "expected exactly 1 inactive class"))
    else (s, some (.countMismatch "expected 5 class save slots"))

/-- The slot list of a save whose navigation succeeds. -/
def slotsOf (s : Save) : List StructValue :=
  match navigateSave s with
  | .ok n => n.slots
  | .error _ => []

/-- The on-disk content after running `edit_save` on a file holding `s`
(modulo the out-of-scope codec): the original bytes are replaced by the
re-encoded tree only when the whole in-memory pipeline succeeded (line 152 is
reached); any error or panic leaves the original file in place. -/
def diskAfterEdit (s : Save) : Save :=
  match editSaveMem s with
  | (s1, none) => s1
  | (_, some _) => s

/-! ## Observation helpers used in the claim statements -/

/-- The `(value, meta)` of an `Int`-typed field of a field map, when present. -/
def getInt (props : List (String × Property)) (key : String) : Option (Int × String) :=
  match lookupProp props key with
  | some (.int v m) => some (v, m)
  | _ => none

/-- The integer value of an `Int`-typed field of a slot, when present. -/
def getIntVal (sv : StructValue) (key : String) : Option Int :=
  match sv with
  | .struct props => (getInt props key).map Prod.fst
  | _ => none

/-- A field of a slot, when the slot is a struct. -/
def slotField (sv : StructValue) (key : String) : Option Property :=
  match sv with
  | .struct props => lookupProp props key
  | _ => none

/-- Whether a slot's `SavegameID` is a `Guid`-typed guid equal to the
sentinel; the total version of the partition test (`false` where the source
would panic). -/
def slotMatches (sv : StructValue) : Bool :=
  match sv with
  | .struct props =>
    match lookupProp props "SavegameID" with
    | some (.struct .guid (.guid u) _) => u == inactiveUuid
    | _ => false
  | _ => false

/-- Whether the partition closure terminates on this slot instead of
panicking: the slot is a struct and has a `SavegameID` field. -/
def slotClassifiable (sv : StructValue) : Bool :=
  match sv with
  | .struct props => (lookupProp props "SavegameID").isSome
  | _ => false

/-- Whether a slot is a struct carrying `Int`-typed `TimesRetired` and
`RetiredCharacterLevels` fields (what the mutation step needs to succeed). -/
def slotHasIntFields (sv : StructValue) : Bool :=
  match sv with
  | .struct props =>
    (getInt props "TimesRetired").isSome && (getInt props "RetiredCharacterLevels").isSome
  | _ => false

/-- Number of slots matching the sentinel. -/
def inactiveCount (slots : List StructValue) : Nat := slots.countP slotMatches

/-- Modelled from the spec (section 3, "Derived statistic"): one slot's
contribution `25 * TimesRetired + RetiredCharacterLevels` to the red-level
total; a missing or non-`Int` field contributes nothing (the claims only
apply this to slots carrying both `Int` fields). -/
def slotRed (sv : StructValue) : Int :=
  25 * ((getIntVal sv "TimesRetired").getD 0) + ((getIntVal sv "RetiredCharacterLevels").getD 0)

/-- Modelled from the spec: the summed red-level total of a slot list. -/
def sumRed (slots : List StructValue) : Int :=
  slots.foldr (fun sv acc => slotRed sv + acc) 0

/-- Modelled from the spec: the derived blue level
`floor(sum_slots(25*TimesRetired + RetiredCharacterLevels) / 3)`;
`Int.fdiv` is floor division. -/
def blueLevelOf (slots : List StructValue) : Int := Int.fdiv (sumRed slots) 3

/-! ## Concrete sample saves -/

/-- A class-save slot with the given `SavegameID` guid and `Int`-typed
retirement fields (plus an untouched `XP` field). -/
def mkSlot (u : Nat) (tr rcl : Int) : StructValue :=
  .struct [("SavegameID", .struct .guid (.guid u) "sid"),
           ("TimesRetired", .int tr "tr"),
           ("RetiredCharacterLevels", .int rcl "rcl"),
           ("XP", .int 1000 "xp")]

/-- Five slots: four active classes with arbitrary prior values and the
sentinel-identified hidden slot in the middle. -/
def sampleSlots : List StructValue :=
  [mkSlot 1 3 7, mkSlot 2 0 12, mkSlot inactiveUuid 5 5, mkSlot 3 2 2, mkSlot 4 1 0]

/-- Wrap a slot list in the full expected tree shape. -/
def mkSave (slots : List StructValue) : Save :=
  { header := "hdr",
    root := { saveGameType := "sg",
              properties :=
                [("Foo", .int 9 "foo"),
                 ("CharacterSaves",
                   .array .structProperty
                     (.structs "CharacterSaves" "StructProperty"
                       (.struct (some "CharacterSave")) slots "va") "arr")] },
    extra := "x" }

/-- The normal-shape sample save. -/
def sampleSave : Save := mkSave sampleSlots

/-- A save whose root has no `CharacterSaves` field at all. -/
def noCSave : Save :=
  { header := "hdr",
    root := { saveGameType := "sg", properties := [("Foo", .int 9 "foo")] },
    extra := "x" }

/-- All mutated slots, as a function of the classification flags. -/
def finalSlotFun (dr : Int) (p : Bool × StructValue) : StructValue :=
  if p.1 then setSlotFields 0 dr p.2
  else setSlotFields MIN_PROMOS RED_LEVELS_PER_PROMO p.2

/-- Whether a property is an `Int` property. -/
def Property.isInt : Property → Bool
  | .int _ _ => true
  | _ => false

/-- A present `CharacterSaves` property of the wrong shape: anything other
than an `Array` of `StructProperty` whose body is a struct value array tagged
`CharacterSaves`/`StructProperty` with element struct type `CharacterSave`. -/
def badShape : Property → Bool
  | .array .structProperty (.structs "CharacterSaves" "StructProperty"
      (.struct (some "CharacterSave")) _ _) _ => false
  | _ => true

/-- A `Guid`-typed guid property, the shape the partition closure demands of
`SavegameID`. -/
def guidShaped : Property → Bool
  | .struct .guid (.guid _) _ => true
  | _ => false

/-- The fixed values a successful run writes: the sentinel slot gets
`TimesRetired = 0`, `RetiredCharacterLevels = -306`; every other slot gets
`1` and `25` — independent of the slots' prior values. -/
def writtenFixed (sv : StructValue) : Prop :=
  (slotMatches sv = true → getIntVal sv "TimesRetired" = some 0 ∧
    getIntVal sv "RetiredCharacterLevels" = some (-306)) ∧
  (slotMatches sv = false → getIntVal sv "TimesRetired" = some 1 ∧
    getIntVal sv "RetiredCharacterLevels" = some 25)

/-- A slot whose `SavegameID` is present but `Int`-typed rather than a Guid. -/
def oddSlot : StructValue :=
  .struct [("SavegameID", .int 7 "sid"),
           ("TimesRetired", .int 3 "tr"),
           ("RetiredCharacterLevels", .int 4 "rcl")]

/-- The sample save with one non-Guid `SavegameID` slot among the five. -/
def oddSave : Save :=
  mkSave [mkSlot 1 3 7, oddSlot, mkSlot inactiveUuid 5 5, mkSlot 3 2 2, mkSlot 4 1 0]

/-- A slot whose field map has no `TimesRetired` key at all. -/
def noTRSlot : StructValue :=
  .struct [("SavegameID", .struct .guid (.guid 9) "sid"),
           ("RetiredCharacterLevels", .int 4 "rcl")]

/-- The sample save in which one visible slot lacks `TimesRetired`. -/
def missingFieldSave : Save :=
  mkSave [mkSlot 1 3 7, noTRSlot, mkSlot inactiveUuid 5 5, mkSlot 3 2 2, mkSlot 4 1 0]

/-- Five well-formed slots with no sentinel match at all. -/
def zeroMatchSave : Save :=
  mkSave [mkSlot 1 3 7, mkSlot 2 0 12, mkSlot 5 5 5, mkSlot 3 2 2, mkSlot 4 1 0]

/-- A second normal-shape save with different prior field values. -/
def sampleSave2 : Save :=
  mkSave [mkSlot 1 0 0, mkSlot 2 9 9, mkSlot inactiveUuid 1 1, mkSlot 3 7 7, mkSlot 4 2 2]

/-- A save whose `CharacterSaves` entry is an `Int` property, not an array. -/
def badShapeSave : Save :=
  { header := "hdr",
    root := { saveGameType := "sg", properties := [("CharacterSaves", .int 3 "z")] },
    extra := "x" }

/-! ## Field-map lemmas -/

theorem lookupProp_setProp_self (l : List (String × Property)) (k : String)
    (p q : Property) (h : lookupProp l k = some q) :
    lookupProp (setProp l k p) k = some p := by
  induction l with
  | nil => simp [lookupProp] at h
  | cons hd tl ih =>
    obtain ⟨k0, v0⟩ := hd
    by_cases hk : k0 = k
    · simp [lookupProp, setProp, hk]
    · simp [lookupProp, setProp, hk] at h ⊢
      exact ih h

theorem lookupProp_setProp_ne (l : List (String × Property)) (k k' : String)
    (p : Property) (h : k' ≠ k) :
    lookupProp (setProp l k p) k' = lookupProp l k' := by
  induction l with
  | nil => simp [setProp]
  | cons hd tl ih =>
    obtain ⟨k0, v0⟩ := hd
    by_cases hk : k0 = k
    · subst hk
      have hne : k0 ≠ k' := fun hc => h hc.symm
      simp [lookupProp, setProp, hne]
    · simp only [lookupProp, setProp, hk, if_false]
      by_cases hk' : k0 = k'
      · simp [lookupProp, hk']
      · simp [lookupProp, hk', ih]

theorem setProp_eq_self (l : List (String × Property)) (k : String) (p : Property)
    (h : lookupProp l k = some p) : setProp l k p = l := by
  induction l with
  | nil => simp [setProp]
  | cons hd tl ih =>
    obtain ⟨k0, v0⟩ := hd
    by_cases hk : k0 = k
    · subst hk
      simp [lookupProp] at h
      simp [setProp, h]
    · simp [lookupProp, hk] at h
      simp [setProp, hk, ih h]

/-! ## Slot-level lemmas -/

theorem getInt_some_inv (props : List (String × Property)) (key : String) (v : Int) (m : String)
    (h : getInt props key = some (v, m)) : lookupProp props key = some (.int v m) := by
  unfold getInt at h
  cases heq : lookupProp props key with
  | none => rw [heq] at h; simp at h
  | some p =>
    rw [heq] at h
    cases p with
    | int v0 m0 =>
      simp at h
      rw [h.1, h.2]
    | struct a b c => simp at h
    | array a b c => simp at h
    | otherProp t => simp at h

theorem setIntField_ok_inv (props props' : List (String × Property)) (key : String) (v : Int)
    (h : setIntField props key v = .ok props') :
    ∃ v0 m, lookupProp props key = some (.int v0 m) ∧
      props' = setProp props key (.int v m) := by
  unfold setIntField at h
  cases heq : lookupProp props key with
  | none => rw [heq] at h; simp at h
  | some p =>
    rw [heq] at h
    cases p with
    | int v0 m =>
      simp at h
      exact ⟨v0, m, rfl, h.symm⟩
    | struct a b c => simp at h
    | array a b c => simp at h
    | otherProp t => simp at h

theorem mutateSlot_ok (props : List (String × Property)) (tr rcl t0 r0 : Int) (m0 m1 : String)
    (hTR : lookupProp props "TimesRetired" = some (.int t0 m0))
    (hRCL : lookupProp props "RetiredCharacterLevels" = some (.int r0 m1)) :
    mutateSlot tr rcl (.struct props) =
      (.struct (setProp (setProp props "TimesRetired" (.int tr m0))
        "RetiredCharacterLevels" (.int rcl m1)), none) := by
  have h1 : lookupProp (setProp props "TimesRetired" (.int tr m0)) "RetiredCharacterLevels"
      = some (.int r0 m1) := by
    rw [lookupProp_setProp_ne _ _ _ _ (by decide)]
    exact hRCL
  simp [mutateSlot, setIntField, hTR, h1]

theorem mutateSlot_none_fields (sv : StructValue) (tr rcl : Int)
    (h : (mutateSlot tr rcl sv).2 = none) : slotHasIntFields sv = true := by
  cases sv with
  | struct props =>
    cases heq1 : setIntField props "TimesRetired" tr with
    | error e =>
      have hm : mutateSlot tr rcl (.struct props) = (.struct props, some e) := by
        simp [mutateSlot, heq1]
      rw [hm] at h
      simp at h
    | ok props1 =>
      cases heq2 : setIntField props1 "RetiredCharacterLevels" rcl with
      | error e =>
        have hm : mutateSlot tr rcl (.struct props) = (.struct props1, some e) := by
          simp [mutateSlot, heq1, heq2]
        rw [hm] at h
        simp at h
      | ok props2 =>
        obtain ⟨t0, m0, hTR, hp1⟩ := setIntField_ok_inv _ _ _ _ heq1
        obtain ⟨r0, m1, hRCL1, _⟩ := setIntField_ok_inv _ _ _ _ heq2
        have hRCL : lookupProp props "RetiredCharacterLevels" = some (.int r0 m1) := by
          rw [hp1, lookupProp_setProp_ne _ _ _ _ (by decide)] at hRCL1
          exact hRCL1
        simp [slotHasIntFields, getInt, hTR, hRCL]
  | guid u => simp [mutateSlot] at h
  | otherSV t => simp [mutateSlot] at h

theorem getInt_isSome_inv (props : List (String × Property)) (key : String)
    (h : (getInt props key).isSome = true) :
    ∃ v m, lookupProp props key = some (.int v m) := by
  rw [Option.isSome_iff_exists] at h
  obtain ⟨⟨v, m⟩, hvm⟩ := h
  exact ⟨v, m, getInt_some_inv _ _ _ _ hvm⟩

theorem slotHasIntFields_elim (sv : StructValue) (h : slotHasIntFields sv = true) :
    ∃ props t0 m0 r0 m1, sv = .struct props ∧
      lookupProp props "TimesRetired" = some (.int t0 m0) ∧
      lookupProp props "RetiredCharacterLevels" = some (.int r0 m1) := by
  cases sv with
  | struct props =>
    simp only [slotHasIntFields, Bool.and_eq_true] at h
    obtain ⟨t0, m0, h1⟩ := getInt_isSome_inv _ _ h.1
    obtain ⟨r0, m1, h2⟩ := getInt_isSome_inv _ _ h.2
    exact ⟨props, t0, m0, r0, m1, rfl, h1, h2⟩
  | guid u => simp [slotHasIntFields] at h
  | otherSV t => simp [slotHasIntFields] at h

/-- Everything the claims need to know about a successfully mutated slot:
the write succeeds, the two retirement fields now hold exactly the written
values, every other field (`SavegameID`, `XP`, ...) is untouched, the
sentinel classification is unchanged, and writing the same values again is a
no-op. -/
theorem setSlotFields_spec (sv : StructValue) (tr rcl : Int) (h : slotHasIntFields sv = true) :
    (mutateSlot tr rcl sv).2 = none ∧
    getIntVal (setSlotFields tr rcl sv) "TimesRetired" = some tr ∧
    getIntVal (setSlotFields tr rcl sv) "RetiredCharacterLevels" = some rcl ∧
    slotHasIntFields (setSlotFields tr rcl sv) = true ∧
    (∀ k, k ≠ "TimesRetired" → k ≠ "RetiredCharacterLevels" →
      slotField (setSlotFields tr rcl sv) k = slotField sv k) ∧
    isInactiveSlot (setSlotFields tr rcl sv) = isInactiveSlot sv ∧
    slotMatches (setSlotFields tr rcl sv) = slotMatches sv ∧
    slotClassifiable (setSlotFields tr rcl sv) = slotClassifiable sv ∧
    mutateSlot tr rcl (setSlotFields tr rcl sv) = (setSlotFields tr rcl sv, none) := by
  obtain ⟨props, t0, m0, r0, m1, rfl, hTR, hRCL⟩ := slotHasIntFields_elim sv h
  have hmut := mutateSlot_ok props tr rcl t0 r0 m0 m1 hTR hRCL
  have hset : setSlotFields tr rcl (.struct props) =
      .struct (setProp (setProp props "TimesRetired" (.int tr m0))
        "RetiredCharacterLevels" (.int rcl m1)) := by
    simp [setSlotFields, hmut]
  have hTR1 : lookupProp (setProp (setProp props "TimesRetired" (.int tr m0))
      "RetiredCharacterLevels" (.int rcl m1)) "TimesRetired" = some (.int tr m0) := by
    rw [lookupProp_setProp_ne _ _ _ _ (by decide)]
    exact lookupProp_setProp_self _ _ _ _ hTR
  have hRCL1 : lookupProp (setProp (setProp props "TimesRetired" (.int tr m0))
      "RetiredCharacterLevels" (.int rcl m1)) "RetiredCharacterLevels" = some (.int rcl m1) := by
    apply lookupProp_setProp_self
    rw [lookupProp_setProp_ne _ _ _ _ (by decide)]
    exact hRCL
  have hother : ∀ k, k ≠ "TimesRetired" → k ≠ "RetiredCharacterLevels" →
      slotField (setSlotFields tr rcl (.struct props)) k = slotField (.struct props) k := by
    intro k hk1 hk2
    rw [hset]
    simp only [slotField]
    rw [lookupProp_setProp_ne _ _ _ _ hk2, lookupProp_setProp_ne _ _ _ _ hk1]
  have hsid : lookupProp (setProp (setProp props "TimesRetired" (.int tr m0))
      "RetiredCharacterLevels" (.int rcl m1)) "SavegameID" = lookupProp props "SavegameID" := by
    rw [lookupProp_setProp_ne _ _ _ _ (by decide), lookupProp_setProp_ne _ _ _ _ (by decide)]
  refine ⟨by simp [hmut], ?_, ?_, ?_, hother, ?_, ?_, ?_, ?_⟩
  · rw [hset]; simp [getIntVal, getInt, hTR1]
  · rw [hset]; simp [getIntVal, getInt, hRCL1]
  · rw [hset]; simp [slotHasIntFields, getInt, hTR1, hRCL1]
  · rw [hset]; simp only [isInactiveSlot, hsid]
  · rw [hset]; simp only [slotMatches, hsid]
  · rw [hset]; simp only [slotClassifiable, hsid]
  · rw [hset]
    have := mutateSlot_ok _ tr rcl tr rcl m0 m1 hTR1 hRCL1
    rw [this]
    rw [setProp_eq_self _ _ _ hTR1]
    rw [setProp_eq_self _ _ _ hRCL1]

/-! ## Classification lemmas -/

theorem isInactiveSlot_of_classifiable (sv : StructValue) (h : slotClassifiable sv = true) :
    isInactiveSlot sv = .ok (slotMatches sv) := by
  cases sv with
  | struct props =>
    simp only [slotClassifiable] at h
    rw [Option.isSome_iff_exists] at h
    obtain ⟨p, hp⟩ := h
    simp only [isInactiveSlot, slotMatches, hp]
    cases p with
    | int v m => rfl
    | struct st v m =>
      cases st with
      | guid => cases v <;> rfl
      | struct sn => rfl
      | otherStruct t => rfl
    | array a b c => rfl
    | otherProp t => rfl
  | guid u => simp [slotClassifiable] at h
  | otherSV t => simp [slotClassifiable] at h

theorem isInactiveSlot_ok_inv (sv : StructValue) (b : Bool) (h : isInactiveSlot sv = .ok b) :
    slotClassifiable sv = true ∧ b = slotMatches sv := by
  have hc : slotClassifiable sv = true := by
    cases sv with
    | struct props =>
      cases hp : lookupProp props "SavegameID" with
      | none => simp [isInactiveSlot, hp] at h
      | some p => simp [slotClassifiable, hp]
    | guid u => simp [isInactiveSlot] at h
    | otherSV t => simp [isInactiveSlot] at h
  rw [isInactiveSlot_of_classifiable sv hc] at h
  simp at h
  exact ⟨hc, h.symm⟩

theorem classifySlots_ok_of_classifiable (slots : List StructValue)
    (h : ∀ sv ∈ slots, slotClassifiable sv = true) :
    classifySlots slots = .ok (slots.map slotMatches) := by
  induction slots with
  | nil => rfl
  | cons sv rest ih =>
    have h1 := isInactiveSlot_of_classifiable sv (h sv (by simp))
    have h2 := ih (fun x hx => h x (by simp [hx]))
    simp [classifySlots, h1, h2]

theorem classifySlots_ok_inv (slots : List StructValue) (flags : List Bool)
    (h : classifySlots slots = .ok flags) :
    flags = slots.map slotMatches ∧ ∀ sv ∈ slots, slotClassifiable sv = true := by
  induction slots generalizing flags with
  | nil =>
    simp only [classifySlots] at h
    simp at h
    subst h
    simp
  | cons sv rest ih =>
    cases hi : isInactiveSlot sv with
    | error e =>
      have hc : classifySlots (sv :: rest) = .error e := by simp [classifySlots, hi]
      rw [hc] at h
      simp at h
    | ok b =>
      cases hr : classifySlots rest with
      | error e =>
        have hc : classifySlots (sv :: rest) = .error e := by simp [classifySlots, hi, hr]
        rw [hc] at h
        simp at h
      | ok bs =>
        have hc : classifySlots (sv :: rest) = .ok (b :: bs) := by simp [classifySlots, hi, hr]
        rw [hc] at h
        simp at h
        obtain ⟨hcl, hbm⟩ := isInactiveSlot_ok_inv sv b hi
        obtain ⟨h1, h2⟩ := ih bs hr
        subst h
        constructor
        · simp [hbm, h1]
        · intro x hx
          rcases List.mem_cons.mp hx with hx | hx
          · exact hx ▸ hcl
          · exact h2 x hx

/-! ## Mutation-pass lemmas -/

theorem mutateActives_none_inv (z : List (Bool × StructValue)) (out : List StructValue)
    (h : mutateActives z = (out, none)) :
    (∀ p ∈ z, p.1 = false → slotHasIntFields p.2 = true) ∧
    out = z.map (fun p => if p.1 then p.2
      else setSlotFields MIN_PROMOS RED_LEVELS_PER_PROMO p.2) := by
  induction z generalizing out with
  | nil =>
    simp only [mutateActives] at h
    simp at h
    subst h
    simp
  | cons p rest ih =>
    obtain ⟨b, sv⟩ := p
    cases b with
    | true =>
      cases hr : mutateActives rest with
      | mk rest1 e =>
        have hc : mutateActives ((true, sv) :: rest) = (sv :: rest1, e) := by
          simp [mutateActives, hr]
        rw [hc] at h
        rw [Prod.mk.injEq] at h
        obtain ⟨hout, he⟩ := h
        subst he
        obtain ⟨ih1, ih2⟩ := ih rest1 hr
        constructor
        · intro q hq hq1
          rcases List.mem_cons.mp hq with hq | hq
          · subst hq; simp at hq1
          · exact ih1 q hq hq1
        · subst hout; simp [ih2]
    | false =>
      cases hm : mutateSlot MIN_PROMOS RED_LEVELS_PER_PROMO sv with
      | mk sv1 e1 =>
        cases e1 with
        | some e =>
          have hc : mutateActives ((false, sv) :: rest) =
              (sv1 :: rest.map Prod.snd, some e) := by
            simp [mutateActives, hm]
          rw [hc] at h
          simp at h
        | none =>
          have hfield : slotHasIntFields sv = true :=
            mutateSlot_none_fields sv _ _ (by rw [hm])
          have hsv1 : setSlotFields MIN_PROMOS RED_LEVELS_PER_PROMO sv = sv1 := by
            rw [setSlotFields, hm]
          cases hr : mutateActives rest with
          | mk rest1 e =>
            have hc : mutateActives ((false, sv) :: rest) = (sv1 :: rest1, e) := by
              simp [mutateActives, hm, hr]
            rw [hc] at h
            rw [Prod.mk.injEq] at h
            obtain ⟨hout, he⟩ := h
            subst he
            obtain ⟨ih1, ih2⟩ := ih rest1 hr
            constructor
            · intro q hq hq1
              rcases List.mem_cons.mp hq with hq | hq
              · subst hq; exact hfield
              · exact ih1 q hq hq1
            · subst hout; simp [ih2, hsv1]

theorem mutateActives_ok (z : List (Bool × StructValue))
    (h : ∀ p ∈ z, p.1 = false → slotHasIntFields p.2 = true) :
    mutateActives z = (z.map (fun p => if p.1 then p.2
      else setSlotFields MIN_PROMOS RED_LEVELS_PER_PROMO p.2), none) := by
  induction z with
  | nil => rfl
  | cons p rest ih =>
    obtain ⟨b, sv⟩ := p
    have ihr := ih (fun q hq => h q (by simp [hq]))
    cases b with
    | true => simp [mutateActives, ihr]
    | false =>
      have hf := h (false, sv) (by simp) rfl
      have hm2 := (setSlotFields_spec sv MIN_PROMOS RED_LEVELS_PER_PROMO hf).1
      cases hm : mutateSlot MIN_PROMOS RED_LEVELS_PER_PROMO sv with
      | mk sv1 e1 =>
        have he1 : e1 = none := by rw [hm] at hm2; exact hm2
        have hsv1 : setSlotFields MIN_PROMOS RED_LEVELS_PER_PROMO sv = sv1 := by
          rw [setSlotFields, hm]
        subst he1
        simp [mutateActives, hm, ihr, hsv1]

theorem map_ite_eq_snd_of_no_true (z : List (Bool × StructValue))
    (f : Bool × StructValue → StructValue)
    (h : ∀ p ∈ z, p.1 = false) :
    z.map (fun p => if p.1 then f p else p.2) = z.map Prod.snd := by
  induction z with
  | nil => rfl
  | cons p rest ih =>
    have hp := h p (by simp)
    simp [hp, ih (fun q hq => h q (by simp [hq]))]

theorem mutateHidden_none_inv (dr : Int) (z : List (Bool × StructValue))
    (out : List StructValue) (e : Option EditError)
    (hcount : z.countP (fun p => p.1) = 1)
    (h : mutateHidden dr z = (out, e)) (he : e = none) :
    (∀ p ∈ z, p.1 = true → slotHasIntFields p.2 = true) ∧
    out = z.map (fun p => if p.1 then setSlotFields 0 dr p.2 else p.2) := by
  subst he
  induction z generalizing out with
  | nil => simp at hcount
  | cons p rest ih =>
    obtain ⟨b, sv⟩ := p
    cases b with
    | true =>
      have hc1 : List.countP (fun p => p.1) ((true, sv) :: rest)
          = List.countP (fun p => p.1) rest + 1 := by simp [List.countP_cons]
      rw [hc1] at hcount
      have hrest0 : rest.countP (fun p => p.1) = 0 := by omega
      have hnotrue : ∀ q ∈ rest, q.1 = false := by
        intro q hq
        have := List.countP_eq_zero.mp hrest0 q hq
        simpa using this
      cases hm : mutateSlot 0 dr sv with
      | mk sv1 e1 =>
        have hc : mutateHidden dr ((true, sv) :: rest) = (sv1 :: rest.map Prod.snd, e1) := by
          simp [mutateHidden, hm]
        rw [hc] at h
        rw [Prod.mk.injEq] at h
        obtain ⟨hout, he1⟩ := h
        subst he1
        have hfield : slotHasIntFields sv = true :=
          mutateSlot_none_fields sv _ _ (by rw [hm])
        have hsv1 : setSlotFields 0 dr sv = sv1 := by rw [setSlotFields, hm]
        constructor
        · intro q hq _
          rcases List.mem_cons.mp hq with hq | hq
          · subst hq; exact hfield
          · rename_i hq1
            rw [hnotrue q hq] at hq1
            simp at hq1
        · subst hout
          simp only [List.map_cons]
          rw [map_ite_eq_snd_of_no_true rest _ hnotrue]
          simp [hsv1]
    | false =>
      have hc1 : List.countP (fun p => p.1) ((false, sv) :: rest)
          = List.countP (fun p => p.1) rest := by simp [List.countP_cons]
      rw [hc1] at hcount
      have hrest1 : rest.countP (fun p => p.1) = 1 := hcount
      cases hr : mutateHidden dr rest with
      | mk rest1 e1 =>
        have hc : mutateHidden dr ((false, sv) :: rest) = (sv :: rest1, e1) := by
          simp [mutateHidden, hr]
        rw [hc] at h
        rw [Prod.mk.injEq] at h
        obtain ⟨hout, he1⟩ := h
        subst he1
        obtain ⟨ih1, ih2⟩ := ih rest1 hrest1 hr
        constructor
        · intro q hq hq1
          rcases List.mem_cons.mp hq with hq | hq
          · subst hq; simp at hq1
          · exact ih1 q hq hq1
        · subst hout; simp [ih2]

theorem mutateHidden_ok (dr : Int) (z : List (Bool × StructValue))
    (hcount : z.countP (fun p => p.1) = 1)
    (h : ∀ p ∈ z, p.1 = true → slotHasIntFields p.2 = true) :
    mutateHidden dr z =
      (z.map (fun p => if p.1 then setSlotFields 0 dr p.2 else p.2), none) := by
  induction z with
  | nil => simp at hcount
  | cons p rest ih =>
    obtain ⟨b, sv⟩ := p
    cases b with
    | true =>
      have hc1 : List.countP (fun p => p.1) ((true, sv) :: rest)
          = List.countP (fun p => p.1) rest + 1 := by simp [List.countP_cons]
      rw [hc1] at hcount
      have hrest0 : rest.countP (fun p => p.1) = 0 := by omega
      have hnotrue : ∀ q ∈ rest, q.1 = false := by
        intro q hq
        have := List.countP_eq_zero.mp hrest0 q hq
        simpa using this
      have hf := h (true, sv) (by simp) rfl
      have hm2 := (setSlotFields_spec sv 0 dr hf).1
      cases hm : mutateSlot 0 dr sv with
      | mk sv1 e1 =>
        have he1 : e1 = none := by rw [hm] at hm2; exact hm2
        have hsv1 : setSlotFields 0 dr sv = sv1 := by rw [setSlotFields, hm]
        subst he1
        have hmap : rest.map (fun p => if p.1 then setSlotFields 0 dr p.2 else p.2)
            = rest.map Prod.snd := map_ite_eq_snd_of_no_true rest _ hnotrue
        simp [mutateHidden, hm, hmap, hsv1]
    | false =>
      have hc1 : List.countP (fun p => p.1) ((false, sv) :: rest)
          = List.countP (fun p => p.1) rest := by simp [List.countP_cons]
      rw [hc1] at hcount
      have ihr := ih hcount (fun q hq => h q (by simp [hq]))
      simp [mutateHidden, ihr]

/-! ## Zip and count helpers -/

theorem zip_map_zip (flags : List Bool) (slots : List StructValue)
    (g : Bool × StructValue → StructValue) :
    flags.zip ((flags.zip slots).map g) = (flags.zip slots).map (fun p => (p.1, g p)) := by
  induction flags generalizing slots with
  | nil => simp
  | cons f fs ih =>
    cases slots with
    | nil => simp
    | cons s ss => simp [ih]

theorem countP_zip_fst (flags : List Bool) (slots : List StructValue)
    (hlen : flags.length = slots.length) (q : Bool → Bool) :
    (flags.zip slots).countP (fun p => q p.1) = flags.countP q := by
  induction flags generalizing slots with
  | nil => simp
  | cons f fs ih =>
    cases slots with
    | nil => simp at hlen
    | cons s ss =>
      simp only [List.length_cons, Nat.succ.injEq] at hlen
      simp [List.countP_cons, ih ss hlen]

theorem exists_mem_zip_of_mem_right (flags : List Bool) (slots : List StructValue)
    (hlen : flags.length = slots.length) (sv : StructValue) (hs : sv ∈ slots) :
    ∃ b, (b, sv) ∈ flags.zip slots := by
  induction flags generalizing slots with
  | nil =>
    cases slots with
    | nil => simp at hs
    | cons s ss => simp at hlen
  | cons f fs ih =>
    cases slots with
    | nil => simp at hs
    | cons s ss =>
      simp only [List.length_cons, Nat.succ.injEq] at hlen
      rcases List.mem_cons.mp hs with h | h
      · exact ⟨f, by simp [h]⟩
      · obtain ⟨b, hb⟩ := ih ss hlen h
        exact ⟨b, by simp [hb]⟩

theorem numInactive_add_numActive (flags : List Bool) :
    numInactive flags + numActive flags = flags.length := by
  induction flags with
  | nil => rfl
  | cons b rest ih =>
    simp only [numInactive, numActive, List.countP_cons] at ih ⊢
    cases b <;> simp <;> omega

/-! ## Navigation and rebuild lemmas -/

theorem navigateSave_ok_inv (s : Save) (n : NavOk) (h : navigateSave s = .ok n) :
    lookupProp s.root.properties "CharacterSaves" =
      some (.array .structProperty
        (.structs "CharacterSaves" "StructProperty"
          (.struct (some "CharacterSave")) n.slots n.vMeta) n.aMeta) := by
  unfold navigateSave at h
  split at h
  · simp at h
  case h_2 aTy va m heq =>
    split at h
    case isTrue ha =>
      subst ha
      split at h
      case h_1 t nm st slots vm =>
        split at h
        case isTrue ht =>
          subst ht
          split at h
          case isTrue hnm =>
            subst hnm
            split at h
            case isTrue hst =>
              subst hst
              simp at h
              rw [heq, ← h]
            case isFalse => simp at h
          case isFalse => simp at h
        case isFalse => simp at h
      case h_2 t => simp at h
    case isFalse => simp at h
  · simp at h

theorem slotsOf_eq (s : Save) (n : NavOk) (h : navigateSave s = .ok n) :
    slotsOf s = n.slots := by
  simp [slotsOf, h]

theorem lookupProp_rebuild (s : Save) (n : NavOk) (newSlots : List StructValue)
    (h : navigateSave s = .ok n) :
    lookupProp (rebuildSave s n newSlots).root.properties "CharacterSaves" =
      some (.array .structProperty
        (.structs "CharacterSaves" "StructProperty"
          (.struct (some "CharacterSave")) newSlots n.vMeta) n.aMeta) := by
  have hl := navigateSave_ok_inv s n h
  simp only [rebuildSave]
  exact lookupProp_setProp_self _ _ _ _ hl

theorem navigateSave_rebuild (s : Save) (n : NavOk) (newSlots : List StructValue)
    (h : navigateSave s = .ok n) :
    navigateSave (rebuildSave s n newSlots) = .ok ⟨n.aMeta, n.vMeta, newSlots⟩ := by
  have hl := lookupProp_rebuild s n newSlots h
  unfold navigateSave
  rw [hl]
  rfl

theorem rebuildSave_self (s : Save) (n : NavOk) (h : navigateSave s = .ok n) :
    rebuildSave s n n.slots = s := by
  have hl := navigateSave_ok_inv s n h
  simp only [rebuildSave]
  rw [setProp_eq_self _ _ _ hl]

/-- Master characterization of a successful run of the in-memory pipeline:
navigation succeeded, there are 5 slots, classification succeeded with
exactly one sentinel match, every slot carries both `Int` retirement fields,
and the result is the input with each slot rewritten by `finalSlotFun`
(active slots get `TimesRetired = 1`, `RetiredCharacterLevels = 25`; the
hidden slot gets `0` and `diffRedLevel 4 = -306`). -/
theorem editSaveMem_success (s s' : Save) (h : editSaveMem s = (s', none)) :
    ∃ n flags, navigateSave s = .ok n ∧ n.slots.length = 5 ∧
      classifySlots n.slots = .ok flags ∧ flags = n.slots.map slotMatches ∧
      numInactive flags = 1 ∧ numActive flags = 4 ∧
      (∀ sv ∈ n.slots, slotClassifiable sv = true) ∧
      (∀ sv ∈ n.slots, slotHasIntFields sv = true) ∧
      s' = rebuildSave s n
        ((flags.zip n.slots).map (finalSlotFun (diffRedLevel (numActive flags)))) := by
  cases hnav : navigateSave s with
  | error e =>
    have hc : editSaveMem s = (s, some e) := by simp [editSaveMem, hnav]
    rw [hc] at h
    simp at h
  | ok n =>
    by_cases h5 : n.slots.length = 5
    case neg =>
      have hc : editSaveMem s = (s, some (.countMismatch "expected 5 class save slots")) := by
        simp [editSaveMem, hnav, h5]
      rw [hc] at h
      simp at h
    cases hcl : classifySlots n.slots with
    | error e =>
      have hc : editSaveMem s = (s, some e) := by simp [editSaveMem, hnav, h5, hcl]
      rw [hc] at h
      simp at h
    | ok flags =>
      by_cases h1 : numInactive flags = 1
      case neg =>
        have hc : editSaveMem s =
            (s, some (.countMismatch "expected exactly 1 inactive class")) := by
          simp [editSaveMem, hnav, h5, hcl, h1]
        rw [hc] at h
        simp at h
      obtain ⟨hflags, hclassifiable⟩ := classifySlots_ok_inv n.slots flags hcl
      have hlen : flags.length = n.slots.length := by rw [hflags]; simp
      have hact : numActive flags = 4 := by
        have := numInactive_add_numActive flags
        rw [h1, hlen, h5] at this
        omega
      cases hma : mutateActives (flags.zip n.slots) with
      | mk slots1 e1 =>
        cases e1 with
        | some e =>
          have hc : editSaveMem s = (rebuildSave s n slots1, some e) := by
            simp [editSaveMem, hnav, h5, hcl, h1, hma]
          rw [hc] at h
          simp at h
        | none =>
          obtain ⟨hfFalse, hslots1⟩ := mutateActives_none_inv _ _ hma
          have hzip1 : flags.zip slots1 =
              (flags.zip n.slots).map (fun p => (p.1, if p.1 then p.2
                else setSlotFields MIN_PROMOS RED_LEVELS_PER_PROMO p.2)) := by
            rw [hslots1]
            exact zip_map_zip flags n.slots _
          have hcount1 : (flags.zip slots1).countP (fun p => p.1) = 1 := by
            rw [hzip1, List.countP_map]
            exact (countP_zip_fst flags n.slots hlen (fun b => b)).trans h1
          cases hmh : mutateHidden (diffRedLevel (numActive flags)) (flags.zip slots1) with
          | mk slots2 e2 =>
            have hc : editSaveMem s = (rebuildSave s n slots2, e2) := by
              simp [editSaveMem, hnav, h5, hcl, h1, hma, hmh]
            rw [hc] at h
            rw [Prod.mk.injEq] at h
            obtain ⟨hs2, he2⟩ := h
            subst he2
            obtain ⟨hfTrue, hslots2⟩ :=
              mutateHidden_none_inv _ _ _ _ hcount1 hmh rfl
            have hallfields : ∀ sv ∈ n.slots, slotHasIntFields sv = true := by
              intro sv hsv
              obtain ⟨b, hb⟩ := exists_mem_zip_of_mem_right flags n.slots hlen sv hsv
              cases b with
              | false => exact hfFalse (false, sv) hb rfl
              | true =>
                have hmem : (true, sv) ∈ flags.zip slots1 := by
                  rw [hzip1]
                  exact List.mem_map_of_mem _ hb
                exact hfTrue (true, sv) hmem rfl
            have hfun : ((fun p => if p.1 then
                  setSlotFields 0 (diffRedLevel (numActive flags)) p.2 else p.2) ∘
                (fun p => ((p.1 : Bool), if p.1 then p.2
                  else setSlotFields MIN_PROMOS RED_LEVELS_PER_PROMO p.2)))
                = finalSlotFun (diffRedLevel (numActive flags)) := by
              funext p
              cases hp : p.1 <;> simp [finalSlotFun, Function.comp, hp]
            have hcomp : slots2 =
                (flags.zip n.slots).map (finalSlotFun (diffRedLevel (numActive flags))) := by
              rw [hslots2, hzip1, List.map_map, hfun]
            exact ⟨n, flags, rfl, h5, hcl, hflags, h1, hact, hclassifiable, hallfields,
              by rw [← hs2, hcomp]⟩

/-! ## Consequences of a successful run -/

theorem map_congr_mem {α β : Type} (l : List α) (f g : α → β)
    (h : ∀ p ∈ l, f p = g p) : l.map f = l.map g := by
  induction l with
  | nil => rfl
  | cons p rest ih => simp [h p (by simp), ih (fun q hq => h q (by simp [hq]))]

theorem mem_zip_map_self (f : StructValue → Bool) (slots : List StructValue)
    (p : Bool × StructValue) (hp : p ∈ (slots.map f).zip slots) : p.1 = f p.2 := by
  induction slots with
  | nil => simp at hp
  | cons sv rest ih =>
    simp only [List.map_cons, List.zip_cons_cons] at hp
    rcases List.mem_cons.mp hp with hp | hp
    · subst hp; rfl
    · exact ih hp

theorem final_slot_values (dr : Int) (p : Bool × StructValue)
    (hf : slotHasIntFields p.2 = true) :
    getIntVal (finalSlotFun dr p) "TimesRetired" = some (if p.1 then 0 else 1) ∧
    getIntVal (finalSlotFun dr p) "RetiredCharacterLevels" = some (if p.1 then dr else 25) ∧
    slotMatches (finalSlotFun dr p) = slotMatches p.2 ∧
    slotHasIntFields (finalSlotFun dr p) = true ∧
    slotClassifiable (finalSlotFun dr p) = slotClassifiable p.2 ∧
    (∀ k, k ≠ "TimesRetired" → k ≠ "RetiredCharacterLevels" →
      slotField (finalSlotFun dr p) k = slotField p.2 k) ∧
    (p.1 = true → mutateSlot 0 dr (finalSlotFun dr p) = (finalSlotFun dr p, none)) ∧
    (p.1 = false → mutateSlot MIN_PROMOS RED_LEVELS_PER_PROMO (finalSlotFun dr p)
      = (finalSlotFun dr p, none)) := by
  cases hp : p.1 with
  | true =>
    obtain ⟨_, hTR0, hRCL0, hfields0, hother0, _, hmatch0, hcls0, hidem0⟩ :=
      setSlotFields_spec p.2 0 dr hf
    have hF : finalSlotFun dr p = setSlotFields 0 dr p.2 := by
      simp [finalSlotFun, hp]
    refine ⟨?_, ?_, ?_, ?_, ?_, ?_, ?_, ?_⟩
    · rw [hF]; simpa using hTR0
    · rw [hF]; simpa using hRCL0
    · rw [hF]; exact hmatch0
    · rw [hF]; exact hfields0
    · rw [hF]; exact hcls0
    · rw [hF]; exact hother0
    · intro _; rw [hF]; exact hidem0
    · intro hc; simp at hc
  | false =>
    obtain ⟨_, hTR1, hRCL1, hfields1, hother1, _, hmatch1, hcls1, hidem1⟩ :=
      setSlotFields_spec p.2 MIN_PROMOS RED_LEVELS_PER_PROMO hf
    have hF : finalSlotFun dr p = setSlotFields MIN_PROMOS RED_LEVELS_PER_PROMO p.2 := by
      simp [finalSlotFun, hp]
    refine ⟨?_, ?_, ?_, ?_, ?_, ?_, ?_, ?_⟩
    · rw [hF]; simpa [MIN_PROMOS] using hTR1
    · rw [hF]; simpa [RED_LEVELS_PER_PROMO] using hRCL1
    · rw [hF]; exact hmatch1
    · rw [hF]; exact hfields1
    · rw [hF]; exact hcls1
    · rw [hF]; exact hother1
    · intro hc; simp at hc
    · intro _; rw [hF]; exact hidem1

/-- Shared helper: after any successful run, every slot of the result holds
the fixed written values determined by its sentinel classification. -/
theorem editSave_written (s s' : Save) (h : editSaveMem s = (s', none)) :
    ∀ sv ∈ slotsOf s', slotHasIntFields sv = true ∧ writtenFixed sv := by
  obtain ⟨n, flags, hnav, h5, hcl, hflags, h1, hact, hclsf, hfields, hs'⟩ :=
    editSaveMem_success s s' h
  have hnavR := navigateSave_rebuild s n
    ((flags.zip n.slots).map (finalSlotFun (diffRedLevel (numActive flags)))) hnav
  have hslots' : slotsOf s' =
      (flags.zip n.slots).map (finalSlotFun (diffRedLevel (numActive flags))) := by
    rw [hs']
    exact slotsOf_eq _ _ hnavR
  have hdr : diffRedLevel (numActive flags) = -306 := by rw [hact]; decide
  intro sv hsv
  rw [hslots'] at hsv
  obtain ⟨p, hp, hpe⟩ := List.mem_map.mp hsv
  obtain ⟨b, sv0⟩ := p
  have hp2 : sv0 ∈ n.slots := (List.of_mem_zip hp).2
  have hfp := hfields sv0 hp2
  have hflag : b = slotMatches sv0 := by
    have := mem_zip_map_self slotMatches n.slots (b, sv0) (by rw [← hflags]; exact hp)
    simpa using this
  subst hpe
  obtain ⟨hTR, hRCL, hmatch, hfields', _, _, _, _⟩ :=
    final_slot_values (diffRedLevel (numActive flags)) (b, sv0) hfp
  refine ⟨hfields', ?_, ?_⟩
  · intro hm
    rw [hmatch] at hm
    rw [← hflag] at hm
    subst hm
    constructor
    · simpa using hTR
    · have h2 : getIntVal (finalSlotFun (diffRedLevel (numActive flags)) (true, sv0))
          "RetiredCharacterLevels" = some (diffRedLevel (numActive flags)) := by
        simpa using hRCL
      rw [h2, hdr]
  · intro hm
    rw [hmatch] at hm
    rw [← hflag] at hm
    subst hm
    exact ⟨by simpa using hTR, by simpa using hRCL⟩

theorem sumRed_cons (sv : StructValue) (l : List StructValue) :
    sumRed (sv :: l) = slotRed sv + sumRed l := rfl

theorem sumRed_final (dr : Int) (z : List (Bool × StructValue))
    (hf : ∀ p ∈ z, slotHasIntFields p.2 = true) :
    sumRed (z.map (finalSlotFun dr)) =
      50 * ((z.countP fun p => !p.1 : Nat) : Int) +
      dr * ((z.countP fun p => p.1 : Nat) : Int) := by
  induction z with
  | nil => simp [sumRed]
  | cons p rest ih =>
    have hp := hf p (by simp)
    obtain ⟨hTR, hRCL, _, _, _, _, _, _⟩ := final_slot_values dr p hp
    have ihr := ih (fun q hq => hf q (by simp [hq]))
    cases hpb : p.1 with
    | false =>
      rw [hpb] at hTR hRCL
      have hsr : slotRed (finalSlotFun dr p) = 50 := by
        simp [slotRed, hTR, hRCL]
      have hcf : List.countP (fun p => !p.1) (p :: rest)
          = List.countP (fun p => !p.1) rest + 1 := by
        simp [List.countP_cons, hpb]
      have hct : List.countP (fun p => p.1) (p :: rest)
          = List.countP (fun p => p.1) rest := by
        simp [List.countP_cons, hpb]
      rw [List.map_cons, sumRed_cons, ihr, hcf, hct, hsr]
      push_cast
      ring
    | true =>
      rw [hpb] at hTR hRCL
      have hsr : slotRed (finalSlotFun dr p) = dr := by
        simp [slotRed, hTR, hRCL]
      have hcf : List.countP (fun p => !p.1) (p :: rest)
          = List.countP (fun p => !p.1) rest := by
        simp [List.countP_cons, hpb]
      have hct : List.countP (fun p => p.1) (p :: rest)
          = List.countP (fun p => p.1) rest + 1 := by
        simp [List.countP_cons, hpb]
      rw [List.map_cons, sumRed_cons, ihr, hcf, hct, hsr]
      push_cast
      ring

/-! ## Remaining helpers -/

theorem editSaveMem_navError (s : Save) (e : EditError) (h : navigateSave s = .error e) :
    editSaveMem s = (s, some e) := by
  simp [editSaveMem, h]

theorem navigateSave_badShape (s : Save) (p : Property)
    (hl : lookupProp s.root.properties "CharacterSaves" = some p) (hb : badShape p = true) :
    ∃ msg, navigateSave s = .error (.shapeMismatch msg) := by
  cases p with
  | int v m => exact ⟨_, by simp [navigateSave, hl]; rfl⟩
  | struct st v m => exact ⟨_, by simp [navigateSave, hl]; rfl⟩
  | otherProp t => exact ⟨_, by simp [navigateSave, hl]; rfl⟩
  | array aTy va m =>
    cases aTy with
    | otherType tag => exact ⟨_, by simp [navigateSave, hl]; rfl⟩
    | structProperty =>
      cases va with
      | otherVA tag => exact ⟨_, by simp [navigateSave, hl]; rfl⟩
      | structs t nm st slots vm =>
        by_cases ht : t = "CharacterSaves"
        case neg => exact ⟨_, by simp [navigateSave, hl, ht]; rfl⟩
        by_cases hnm : nm = "StructProperty"
        case neg => exact ⟨_, by simp [navigateSave, hl, ht, hnm]; rfl⟩
        by_cases hst : st = .struct (some "CharacterSave")
        case neg => exact ⟨_, by simp [navigateSave, hl, ht, hnm, hst]; rfl⟩
        subst ht
        subst hnm
        subst hst
        simp [badShape] at hb

/-! ## Claims -/

/-- C1: the claim says that after a successful in-memory run the derived blue
level `floor(sum_slots(25*TimesRetired + RetiredCharacterLevels) / 3)` equals
the target `-69`.  In fact every successful run of the code yields blue level
`-36`: line 114 of the source omits the 25 residual red levels it just wrote
into each active slot, so the hidden slot absorbs too little.  The code
contradicts its own comment (lines 89-94) and the spec's solver; the claim is
right about the intent and the code is wrong. -/
theorem c1_blue_level_after_run (s s' : Save) (h : editSaveMem s = (s', none)) :
    blueLevelOf (slotsOf s') = -36 ∧ targetBlueLevel = -69 := by
  obtain ⟨n, flags, hnav, h5, hcl, hflags, h1, hact, hclsf, hfields, hs'⟩ :=
    editSaveMem_success s s' h
  have hlen : flags.length = n.slots.length := by rw [hflags]; simp
  have hnavR := navigateSave_rebuild s n
    ((flags.zip n.slots).map (finalSlotFun (diffRedLevel (numActive flags)))) hnav
  have hslots' : slotsOf s' =
      (flags.zip n.slots).map (finalSlotFun (diffRedLevel (numActive flags))) := by
    rw [hs']
    exact slotsOf_eq _ _ hnavR
  have hdr : diffRedLevel (numActive flags) = -306 := by rw [hact]; decide
  have hfz : ∀ p ∈ flags.zip n.slots, slotHasIntFields p.2 = true := by
    intro p hp
    exact hfields p.2 (List.of_mem_zip hp).2
  have hcf : (flags.zip n.slots).countP (fun p => !p.1) = 4 :=
    (countP_zip_fst flags n.slots hlen (fun b => !b)).trans hact
  have hct : (flags.zip n.slots).countP (fun p => p.1) = 1 :=
    (countP_zip_fst flags n.slots hlen (fun b => b)).trans h1
  have hsum : sumRed (slotsOf s') = -106 := by
    rw [hslots', sumRed_final _ _ hfz, hcf, hct, hdr]
    norm_num
  constructor
  · show Int.fdiv (sumRed (slotsOf s')) 3 = -36
    rw [hsum]
    decide
  · rfl

/-- C1 witness: the sample save runs successfully and lands on blue level
`-36`, not the target `-69`. -/
theorem c1_witness :
    blueLevelOf (slotsOf (editSaveMem sampleSave).1) = -36 ∧ targetBlueLevel = -69 :=
  c1_blue_level_after_run sampleSave (editSaveMem sampleSave).1 rfl

/-- C2: the claim says the solved hidden-slot values are `TimesRetired = 0`
and `RetiredCharacterLevels = -69*3 - 4*(25*1+25) = -407`.  The code does
write `TimesRetired = 0`, but writes `RetiredCharacterLevels = -306`
(`(-69 - (4*25)/3) * 3`), not the spec's `-407`: same root cause as C1. -/
theorem c2_hidden_slot_gets_minus_306 (s s' : Save) (h : editSaveMem s = (s', none)) :
    (∀ sv ∈ slotsOf s', slotMatches sv = true →
      getIntVal sv "TimesRetired" = some 0 ∧
      getIntVal sv "RetiredCharacterLevels" = some (-306)) ∧
    (-306 : Int) ≠ targetBlueLevel * 3 - 4 * (25 * 1 + 25) := by
  refine ⟨?_, by decide⟩
  intro sv hsv hm
  exact ((editSave_written s s' h sv hsv).2).1 hm

/-- C2 witness: in the processed sample save the hidden slot holds `0` and
`-306`. -/
theorem c2_witness :
    getIntVal (mkSlot inactiveUuid 0 (-306)) "TimesRetired" = some 0 ∧
    getIntVal (mkSlot inactiveUuid 0 (-306)) "RetiredCharacterLevels" = some (-306) :=
  (c2_hidden_slot_gets_minus_306 sampleSave (editSaveMem sampleSave).1 rfl).1
    (mkSlot inactiveUuid 0 (-306))
    (List.Mem.tail _ (List.Mem.tail _ (List.Mem.head _))) rfl

/-- C3: if navigation succeeded but the slot count is not 5, or (for
classifiable slots) the sentinel-match count is not exactly 1, the run fails
with a `CountMismatch`-class error and the in-memory tree is returned
untouched — the failure happens before any field is mutated. -/
theorem c3_count_mismatch_unmutated (s : Save) (n : NavOk)
    (hnav : navigateSave s = .ok n)
    (hbad : n.slots.length ≠ 5 ∨
      ((∀ sv ∈ n.slots, slotClassifiable sv = true) ∧ inactiveCount n.slots ≠ 1)) :
    ∃ e, editSaveMem s = (s, some e) ∧ e.isCountMismatch = true := by
  by_cases h5 : n.slots.length = 5
  · rcases hbad with h | ⟨hclsf, hcnt⟩
    · exact absurd h5 h
    · have hcl := classifySlots_ok_of_classifiable n.slots hclsf
      have hcount : numInactive (n.slots.map slotMatches) = inactiveCount n.slots := by
        show List.countP (fun b => b) (n.slots.map slotMatches) = inactiveCount n.slots
        rw [List.countP_map]
        rfl
      have hnum : numInactive (n.slots.map slotMatches) ≠ 1 := by
        rw [hcount]
        exact hcnt
      refine ⟨.countMismatch "expected exactly 1 inactive class", ?_, rfl⟩
      simp [editSaveMem, hnav, h5, hcl, hnum]
  · refine ⟨.countMismatch "expected 5 class save slots", ?_, rfl⟩
    simp [editSaveMem, hnav, h5]

/-- C3 witness: five well-formed slots with zero sentinel matches abort with
a count error and an unchanged tree. -/
theorem c3_witness :
    ∃ e, editSaveMem zeroMatchSave = (zeroMatchSave, some e) ∧ e.isCountMismatch = true :=
  c3_count_mismatch_unmutated zeroMatchSave
    ⟨"arr", "va", [mkSlot 1 3 7, mkSlot 2 0 12, mkSlot 5 5 5, mkSlot 3 2 2, mkSlot 4 1 0]⟩
    rfl (Or.inr ⟨by decide, by decide⟩)

/-- C4 counterexample: the claim says a tree whose root lacks the
`CharacterSaves` field fails with a `ShapeMismatch` error.  In fact indexing
the missing key panics (`Index` on the field map), which is not the
`ShapeMismatch` error return. -/
theorem c4_counterexample :
    editSaveMem noCSave = (noCSave, some (.panic "key not found")) ∧
    EditError.isPanic (.panic "key not found") = true ∧
    EditError.isShapeMismatch (.panic "key not found") = false :=
  ⟨rfl, rfl, rfl⟩

/-- C4 (amended): when `CharacterSaves` is missing the run aborts with a
panic, and when it is present with the wrong variant or type tags the run
fails with a `ShapeMismatch` error; in both cases the in-memory tree is
unchanged and the original file is never overwritten. -/
theorem c4_amended_theorem (s : Save)
    (h : lookupProp s.root.properties "CharacterSaves" = none ∨
      ∃ p, lookupProp s.root.properties "CharacterSaves" = some p ∧ badShape p = true) :
    ∃ e, editSaveMem s = (s, some e) ∧
      (lookupProp s.root.properties "CharacterSaves" = none → e.isPanic = true) ∧
      ((∃ p, lookupProp s.root.properties "CharacterSaves" = some p ∧ badShape p = true) →
        e.isShapeMismatch = true) ∧
      diskAfterEdit s = s := by
  rcases h with hl | ⟨p, hl, hb⟩
  · have hnav : navigateSave s = .error (.panic "key not found") := by
      unfold navigateSave
      rw [hl]
    have hmem := editSaveMem_navError s _ hnav
    refine ⟨_, hmem, fun _ => rfl, ?_, ?_⟩
    · rintro ⟨p, hp, _⟩
      rw [hl] at hp
      simp at hp
    · simp [diskAfterEdit, hmem]
  · obtain ⟨msg, hnav⟩ := navigateSave_badShape s p hl hb
    have hmem := editSaveMem_navError s _ hnav
    refine ⟨_, hmem, ?_, fun _ => rfl, ?_⟩
    · intro h0
      rw [h0] at hl
      simp at hl
    · simp [diskAfterEdit, hmem]

/-- C4 witness: a save whose `CharacterSaves` is an `Int` fails with a
`ShapeMismatch`, leaves the tree unchanged and never overwrites the file. -/
theorem c4_amended_witness :
    (editSaveMem badShapeSave).1 = badShapeSave ∧
    (editSaveMem badShapeSave).2.map EditError.isShapeMismatch = some true ∧
    diskAfterEdit badShapeSave = badShapeSave := by
  obtain ⟨e, he, _, hshape, hdisk⟩ :=
    c4_amended_theorem badShapeSave (Or.inr ⟨.int 3 "z", rfl, rfl⟩)
  have hs := hshape ⟨.int 3 "z", rfl, rfl⟩
  exact ⟨by rw [he], by rw [he]; simp [hs], hdisk⟩

/-- C5: after a successful run every slot of the result that does not match
the sentinel holds `TimesRetired = 1` and `RetiredCharacterLevels = 25`. -/
theorem c5_visible_slots_fixed (s s' : Save) (h : editSaveMem s = (s', none)) :
    ∀ sv ∈ slotsOf s', slotMatches sv = false →
      getIntVal sv "TimesRetired" = some 1 ∧
      getIntVal sv "RetiredCharacterLevels" = some 25 := by
  intro sv hsv hm
  exact ((editSave_written s s' h sv hsv).2).2 hm

/-- C5 witness: the first visible slot of the processed sample save holds
`1` and `25`. -/
theorem c5_witness :
    getIntVal (mkSlot 1 1 25) "TimesRetired" = some 1 ∧
    getIntVal (mkSlot 1 1 25) "RetiredCharacterLevels" = some 25 :=
  c5_visible_slots_fixed sampleSave (editSaveMem sampleSave).1 rfl
    (mkSlot 1 1 25) (List.Mem.head _) rfl

/-- C6 counterexample: the claim says a slot lacking `TimesRetired` fails
with a `FieldMissing` error.  In fact the missing key panics (map indexing);
the `FieldMissing`-style "not found" error fires only for a present non-`Int`
field. -/
theorem c6_counterexample :
    (editSaveMem missingFieldSave).2 = some (.panic "key not found") ∧
    EditError.isFieldMissing (.panic "key not found") = false :=
  ⟨rfl, rfl⟩

/-- C6 (amended): writing an integer field panics when the field is absent
from the slot's map, and fails with the field-naming "not found" error
exactly when the field is present but not `Int`-typed. -/
theorem c6_amended_theorem (props : List (String × Property)) (key : String) (v : Int) :
    (lookupProp props key = none →
      setIntField props key v = .error (.panic "key not found")) ∧
    (∀ p, lookupProp props key = some p → Property.isInt p = false →
      setIntField props key v = .error (.fieldMissing ("`" ++ key ++ "` not found"))) := by
  constructor
  · intro hl
    simp [setIntField, hl]
  · intro p hl hpi
    cases p with
    | int v0 m => simp [Property.isInt] at hpi
    | struct a b c => simp [setIntField, hl]
    | array a b c => simp [setIntField, hl]
    | otherProp t => simp [setIntField, hl]

/-- C6 witness: a present but non-`Int` `TimesRetired` fails with the
"not found" error naming the field. -/
theorem c6_amended_witness :
    setIntField [("TimesRetired", .otherProp "s")] "TimesRetired" 1 =
      .error (.fieldMissing "`TimesRetired` not found") :=
  (c6_amended_theorem [("TimesRetired", .otherProp "s")] "TimesRetired" 1).2
    (.otherProp "s") rfl rfl

/-- C7 counterexample: the claim says a slot whose `SavegameID` is not
`Guid`-typed terminates the run as a structural error.  In fact a save with
an `Int`-typed `SavegameID` slot runs to success and that slot is silently
counted as visible (it is written `1` and `25`). -/
theorem c7_counterexample :
    (editSaveMem oddSave).2 = none ∧
    getIntVal ((slotsOf (editSaveMem oddSave).1).getD 1 (.otherSV "none"))
      "TimesRetired" = some 1 ∧
    getIntVal ((slotsOf (editSaveMem oddSave).1).getD 1 (.otherSV "none"))
      "RetiredCharacterLevels" = some 25 :=
  ⟨rfl, rfl, rfl⟩

/-- C7 (amended): the partition test classifies a slot whose `SavegameID` is
present but not a `Guid`-typed guid as non-matching (visible), with no
error. -/
theorem c7_amended_theorem (props : List (String × Property)) (p : Property)
    (hl : lookupProp props "SavegameID" = some p) (hg : guidShaped p = false) :
    isInactiveSlot (.struct props) = .ok false := by
  cases p with
  | int v m => simp [isInactiveSlot, hl]
  | otherProp t => simp [isInactiveSlot, hl]
  | array a b c => simp [isInactiveSlot, hl]
  | struct st v m =>
    cases st with
    | guid =>
      cases v with
      | guid u => simp [guidShaped] at hg
      | struct pr => simp [isInactiveSlot, hl]
      | otherSV t => simp [isInactiveSlot, hl]
    | struct sn => simp [isInactiveSlot, hl]
    | otherStruct t => simp [isInactiveSlot, hl]

/-- C7 witness: the `Int`-`SavegameID` slot is classified visible. -/
theorem c7_amended_witness : isInactiveSlot oddSlot = .ok false :=
  c7_amended_theorem
    [("SavegameID", .int 7 "sid"), ("TimesRetired", .int 3 "tr"),
     ("RetiredCharacterLevels", .int 4 "rcl")] (.int 7 "sid") rfl rfl

/-- C10: the target blue level is the hardcoded constant `-69`, and for any
two successfully-processed trees the written values are the same fixed
constants, independent of the slots' prior `TimesRetired` and
`RetiredCharacterLevels` values. -/
theorem c10_writes_constant (s t s' t' : Save)
    (hs : editSaveMem s = (s', none)) (ht : editSaveMem t = (t', none)) :
    targetBlueLevel = -69 ∧
    (∀ sv ∈ slotsOf s', writtenFixed sv) ∧
    (∀ sv ∈ slotsOf t', writtenFixed sv) :=
  ⟨rfl, fun sv hsv => (editSave_written s s' hs sv hsv).2,
    fun sv hsv => (editSave_written t t' ht sv hsv).2⟩

/-- C10 witness: two saves with different prior values both end with the
fixed written values. -/
theorem c10_witness :
    targetBlueLevel = -69 ∧
    writtenFixed (mkSlot inactiveUuid 0 (-306)) ∧
    writtenFixed (mkSlot 2 1 25) := by
  obtain ⟨h1, h2, h3⟩ := c10_writes_constant sampleSave sampleSave2
    (editSaveMem sampleSave).1 (editSaveMem sampleSave2).1 rfl rfl
  exact ⟨h1, h2 _ (List.Mem.tail _ (List.Mem.tail _ (List.Mem.head _))),
    h3 _ (List.Mem.tail _ (List.Mem.head _))⟩

theorem final_comp (dr : Int) (z : List (Bool × StructValue)) :
    ((z.map (fun p => ((p.1 : Bool), if p.1 then p.2
      else setSlotFields MIN_PROMOS RED_LEVELS_PER_PROMO p.2))).map
        (fun q => if q.1 then setSlotFields 0 dr q.2 else q.2))
      = z.map (finalSlotFun dr) := by
  rw [List.map_map]
  apply map_congr_mem
  intro p _
  cases hp : p.1 <;> simp [finalSlotFun, Function.comp, hp]

/-- Backward characterization: a well-shaped save (right navigation shape,
5 slots, classifiable slots with exactly one sentinel match, all slots with
both `Int` fields) runs successfully and produces exactly the
`finalSlotFun`-mutated tree. -/
theorem editSaveMem_of_wellformed (s : Save) (n : NavOk) (flags : List Bool)
    (hnav : navigateSave s = .ok n) (h5 : n.slots.length = 5)
    (hflags : flags = n.slots.map slotMatches) (h1 : numInactive flags = 1)
    (hclsf : ∀ sv ∈ n.slots, slotClassifiable sv = true)
    (hfields : ∀ sv ∈ n.slots, slotHasIntFields sv = true) :
    editSaveMem s = (rebuildSave s n
      ((flags.zip n.slots).map (finalSlotFun (diffRedLevel (numActive flags)))), none) := by
  have hlen : flags.length = n.slots.length := by rw [hflags]; simp
  have hcl : classifySlots n.slots = .ok flags := by
    rw [hflags]
    exact classifySlots_ok_of_classifiable n.slots hclsf
  have hfz : ∀ p ∈ flags.zip n.slots, slotHasIntFields p.2 = true := fun p hp =>
    hfields p.2 (List.of_mem_zip hp).2
  have hma : mutateActives (flags.zip n.slots) = ((flags.zip n.slots).map
      (fun p => if p.1 then p.2 else setSlotFields MIN_PROMOS RED_LEVELS_PER_PROMO p.2),
        none) :=
    mutateActives_ok _ (fun p hp _ => hfz p hp)
  have hzip1 : flags.zip ((flags.zip n.slots).map (fun p => if p.1 then p.2
      else setSlotFields MIN_PROMOS RED_LEVELS_PER_PROMO p.2)) =
      (flags.zip n.slots).map (fun p => ((p.1 : Bool), if p.1 then p.2
        else setSlotFields MIN_PROMOS RED_LEVELS_PER_PROMO p.2)) := zip_map_zip flags n.slots _
  have hcount1 : ((flags.zip n.slots).map (fun p => ((p.1 : Bool), if p.1 then p.2
      else setSlotFields MIN_PROMOS RED_LEVELS_PER_PROMO p.2))).countP (fun p => p.1) = 1 := by
    rw [List.countP_map]
    exact (countP_zip_fst flags n.slots hlen (fun b => b)).trans h1
  have hfz2 : ∀ q ∈ (flags.zip n.slots).map (fun p => ((p.1 : Bool), if p.1 then p.2
      else setSlotFields MIN_PROMOS RED_LEVELS_PER_PROMO p.2)),
      q.1 = true → slotHasIntFields q.2 = true := by
    intro q hq hq1
    obtain ⟨p, hp, hpe⟩ := List.mem_map.mp hq
    subst hpe
    have hp1 : p.1 = true := hq1
    simp only [hp1, if_true]
    exact hfz p hp
  have hmh := mutateHidden_ok (diffRedLevel (numActive flags)) _ hcount1 hfz2
  have hcomp := final_comp (diffRedLevel (numActive flags)) (flags.zip n.slots)
  simp [editSaveMem, hnav, h5, hcl, h1, hma, hzip1, hmh, hcomp]

/-- C8: running the in-memory pipeline a second time on an
already-processed tree succeeds and changes nothing: the result (all
`TimesRetired`/`RetiredCharacterLevels` values, and hence the computed blue
level) is identical to the first run's. -/
theorem c8_idempotent (s s' : Save) (h : editSaveMem s = (s', none)) :
    editSaveMem s' = (s', none) := by
  obtain ⟨n, flags, hnav, h5, hcl, hflags, h1, hact, hclsf, hfields, hs'⟩ :=
    editSaveMem_success s s' h
  have hlen : flags.length = n.slots.length := by rw [hflags]; simp
  have hfz : ∀ p ∈ flags.zip n.slots, slotHasIntFields p.2 = true := fun p hp =>
    hfields p.2 (List.of_mem_zip hp).2
  have hnavR : navigateSave s' = .ok ⟨n.aMeta, n.vMeta,
      (flags.zip n.slots).map (finalSlotFun (diffRedLevel (numActive flags)))⟩ := by
    rw [hs']
    exact navigateSave_rebuild s n _ hnav
  have h5' : ((flags.zip n.slots).map
      (finalSlotFun (diffRedLevel (numActive flags)))).length = 5 := by
    rw [List.length_map, List.length_zip, hlen, h5]
    simp
  have hflags' : flags = ((flags.zip n.slots).map
      (finalSlotFun (diffRedLevel (numActive flags)))).map slotMatches := by
    rw [List.map_map]
    have h2 : (flags.zip n.slots).map
        (slotMatches ∘ finalSlotFun (diffRedLevel (numActive flags)))
        = (flags.zip n.slots).map (fun p => p.1) := by
      apply map_congr_mem
      intro p hp
      have hm := (final_slot_values (diffRedLevel (numActive flags)) p (hfz p hp)).2.2.1
      have hq := mem_zip_map_self slotMatches n.slots p (by rw [← hflags]; exact hp)
      simp only [Function.comp]
      rw [hm, ← hq]
    rw [h2]
    exact (List.map_fst_zip flags n.slots (le_of_eq hlen)).symm
  have hclsf' : ∀ sv ∈ (flags.zip n.slots).map
      (finalSlotFun (diffRedLevel (numActive flags))), slotClassifiable sv = true := by
    intro sv hsv
    obtain ⟨p, hp, hpe⟩ := List.mem_map.mp hsv
    subst hpe
    rw [(final_slot_values (diffRedLevel (numActive flags)) p (hfz p hp)).2.2.2.2.1]
    exact hclsf p.2 (List.of_mem_zip hp).2
  have hfields' : ∀ sv ∈ (flags.zip n.slots).map
      (finalSlotFun (diffRedLevel (numActive flags))), slotHasIntFields sv = true := by
    intro sv hsv
    obtain ⟨p, hp, hpe⟩ := List.mem_map.mp hsv
    subst hpe
    exact (final_slot_values (diffRedLevel (numActive flags)) p (hfz p hp)).2.2.2.1
  have hb := editSaveMem_of_wellformed s' ⟨n.aMeta, n.vMeta,
      (flags.zip n.slots).map (finalSlotFun (diffRedLevel (numActive flags)))⟩ flags
    hnavR h5' hflags' h1 hclsf' hfields'
  dsimp only at hb
  have hcollapse : ((flags.zip ((flags.zip n.slots).map
      (finalSlotFun (diffRedLevel (numActive flags))))).map
        (finalSlotFun (diffRedLevel (numActive flags))))
      = (flags.zip n.slots).map (finalSlotFun (diffRedLevel (numActive flags))) := by
    rw [zip_map_zip, List.map_map]
    apply map_congr_mem
    intro p hp
    show finalSlotFun (diffRedLevel (numActive flags))
        ((p.1 : Bool), finalSlotFun (diffRedLevel (numActive flags)) p)
      = finalSlotFun (diffRedLevel (numActive flags)) p
    obtain ⟨_, _, _, _, _, _, hidemT, hidemF⟩ :=
      final_slot_values (diffRedLevel (numActive flags)) p (hfz p hp)
    cases hpb : p.1 with
    | true =>
      show (mutateSlot 0 (diffRedLevel (numActive flags))
        (finalSlotFun (diffRedLevel (numActive flags)) p)).1
          = finalSlotFun (diffRedLevel (numActive flags)) p
      rw [hidemT hpb]
    | false =>
      show (mutateSlot MIN_PROMOS RED_LEVELS_PER_PROMO
        (finalSlotFun (diffRedLevel (numActive flags)) p)).1
          = finalSlotFun (diffRedLevel (numActive flags)) p
      rw [hidemF hpb]
  rw [hcollapse] at hb
  have hself : rebuildSave s' ⟨n.aMeta, n.vMeta, (flags.zip n.slots).map
      (finalSlotFun (diffRedLevel (numActive flags)))⟩
      ((flags.zip n.slots).map (finalSlotFun (diffRedLevel (numActive flags)))) = s' := by
    have h3 := rebuildSave_self s' ⟨n.aMeta, n.vMeta, (flags.zip n.slots).map
      (finalSlotFun (diffRedLevel (numActive flags)))⟩ hnavR
    dsimp only at h3
    exact h3
  rw [hself] at hb
  exact hb

/-- C8 witness: processing the processed sample save again returns it
unchanged. -/
theorem c8_witness :
    editSaveMem (editSaveMem sampleSave).1 = ((editSaveMem sampleSave).1, none) :=
  c8_idempotent sampleSave (editSaveMem sampleSave).1 rfl

theorem forall2_map_zip (R : StructValue → StructValue → Prop)
    (f : Bool × StructValue → StructValue)
    (flags : List Bool) (slots : List StructValue) (hlen : flags.length = slots.length)
    (h : ∀ p ∈ flags.zip slots, R p.2 (f p)) :
    List.Forall₂ R slots ((flags.zip slots).map f) := by
  induction flags generalizing slots with
  | nil =>
    cases slots with
    | nil => exact List.Forall₂.nil
    | cons s ss => simp at hlen
  | cons b bs ih =>
    cases slots with
    | nil => simp at hlen
    | cons s ss =>
      simp only [List.length_cons, Nat.succ.injEq] at hlen
      simp only [List.zip_cons_cons, List.map_cons]
      exact List.Forall₂.cons (h (b, s) (by simp))
        (ih ss hlen (fun q hq => h q (by simp [hq])))

/-- C9: a successful run leaves everything except the two retirement fields
of the five slots untouched: the save header and trailer, the save-game
type, every root property other than `CharacterSaves`, and — slot by slot —
every field other than `TimesRetired` and `RetiredCharacterLevels`
(including `SavegameID` and `XP`). -/
theorem c9_frame (s s' : Save) (h : editSaveMem s = (s', none)) :
    s'.header = s.header ∧ s'.extra = s.extra ∧
    s'.root.saveGameType = s.root.saveGameType ∧
    (∀ k, k ≠ "CharacterSaves" →
      lookupProp s'.root.properties k = lookupProp s.root.properties k) ∧
    List.Forall₂ (fun a b => slotMatches b = slotMatches a ∧
      ∀ k, k ≠ "TimesRetired" → k ≠ "RetiredCharacterLevels" →
        slotField b k = slotField a k) (slotsOf s) (slotsOf s') := by
  obtain ⟨n, flags, hnav, h5, hcl, hflags, h1, hact, hclsf, hfields, hs'⟩ :=
    editSaveMem_success s s' h
  have hlen : flags.length = n.slots.length := by rw [hflags]; simp
  have hfz : ∀ p ∈ flags.zip n.slots, slotHasIntFields p.2 = true := fun p hp =>
    hfields p.2 (List.of_mem_zip hp).2
  have hnavR := navigateSave_rebuild s n
    ((flags.zip n.slots).map (finalSlotFun (diffRedLevel (numActive flags)))) hnav
  have hslotsS : slotsOf s = n.slots := slotsOf_eq s n hnav
  have hslots' : slotsOf s' =
      (flags.zip n.slots).map (finalSlotFun (diffRedLevel (numActive flags))) := by
    rw [hs']
    exact slotsOf_eq _ _ hnavR
  subst hs'
  refine ⟨rfl, rfl, rfl, ?_, ?_⟩
  · intro k hk
    exact lookupProp_setProp_ne _ _ _ _ hk
  · rw [hslotsS, hslots']
    apply forall2_map_zip _ _ flags n.slots hlen
    intro p hp
    obtain ⟨_, _, hmatch, _, _, hother, _, _⟩ :=
      final_slot_values (diffRedLevel (numActive flags)) p (hfz p hp)
    exact ⟨hmatch, hother⟩

/-- C9 witness: the processed sample save keeps its header and its untouched
root property `Foo`. -/
theorem c9_witness :
    (editSaveMem sampleSave).1.header = sampleSave.header ∧
    lookupProp (editSaveMem sampleSave).1.root.properties "Foo"
      = lookupProp sampleSave.root.properties "Foo" := by
  obtain ⟨hh, _, _, hlook, _⟩ := c9_frame sampleSave (editSaveMem sampleSave).1 rfl
  exact ⟨hh, hlook "Foo" (by decide)⟩

end BNR
